import Mathlib

/-!
A shallow embedding of the FFMC job-orchestration core (orchestrator,
worker pool, state manager, conversion database) together with proofs
about its filtering, scheduling, persistence and shutdown behaviour.

Paths are modelled as `String`, wall-clock instants as `Nat` ticks,
byte sizes and durations as `Nat`.  Float-valued presentation fields
(fps, compression ratios as floats) are not needed by any property
considered here and are left out of the record types.
-/

namespace FFMC

/-- Analysis snapshot of one video file (`codec_detector.VideoAnalysis`),
restricted to the fields the core pipeline reads. -/
structure VideoAnalysis where
  video_codec : String
  file_size : Nat
  needs_conversion : Bool
  reason : String
  deriving DecidableEq, Repr

/-- `conversions.status` column values. -/
inductive ConvStatus where
  | started
  | completed
  | failed
  | skipped
  deriving DecidableEq, Repr

/-- One row of the `conversions` table. -/
structure ConversionRecord where
  file_path : String
  status : ConvStatus
  original_size : Nat
  converted_size : Option Nat
  space_saved : Option Int
  processing_time : Option Nat
  error_message : Option String
  started_at : Option Nat
  completed_at : Option Nat
  deriving DecidableEq, Repr

/-- The single-row `statistics` ledger. -/
structure Statistics where
  total_conversions : Nat
  successful_conversions : Nat
  failed_conversions : Nat
  skipped_conversions : Nat
  total_original_size : Nat
  total_converted_size : Nat
  total_space_saved : Int
  total_processing_time : Nat
  last_updated : Nat
  deriving DecidableEq, Repr

/-- Fresh ledger row (all counters default to zero). -/
def Statistics.init : Statistics :=
  ⟨0, 0, 0, 0, 0, 0, 0, 0, 0⟩

/-- The ResultStore (`ConversionDatabase`): `videos` analysis cache,
`conversions` history and the `statistics` ledger. -/
structure ConversionDatabase where
  videos : List (String × VideoAnalysis)
  conversions : List ConversionRecord
  statistics : Statistics
  deriving DecidableEq, Repr

namespace ConversionDatabase

/-- Database right after `_initialize_database` on a fresh file. -/
def init : ConversionDatabase :=
  ⟨[], [], Statistics.init⟩

/-- `store_analysis`: `INSERT OR REPLACE` keyed on `file_path` (the
conflicting row is deleted and the fresh row appended). -/
def store_analysis (db : ConversionDatabase) (p : String) (a : VideoAnalysis) :
    ConversionDatabase :=
  { db with videos := db.videos.filter (fun kv => kv.1 ≠ p) ++ [(p, a)] }

/-- `get_analysis`: look up the cached analysis for a path. -/
def get_analysis (db : ConversionDatabase) (p : String) : Option VideoAnalysis :=
  (db.videos.find? (fun kv => kv.1 = p)).map Prod.snd

/-- `is_converted`: true iff some `conversions` row for the path has
status `completed`. -/
def is_converted (db : ConversionDatabase) (p : String) : Bool :=
  db.conversions.any (fun r => r.file_path = p ∧ r.status = .completed)

/-- `mark_started`: requires the path to exist in `videos` (otherwise a
`DatabaseError` is raised, modelled as `none`); inserts a `started` row. -/
def mark_started (db : ConversionDatabase) (p : String) (original_size now : Nat) :
    Option ConversionDatabase :=
  if db.videos.any (fun kv => kv.1 = p) then
    some { db with conversions := db.conversions ++
      [⟨p, .started, original_size, none, none, none, none, some now, none⟩] }
  else
    none

/-- The row-level effect of `mark_completed`'s `UPDATE conversions ...
WHERE file_path = ? AND status = 'started'`. -/
def completeRow (p : String) (converted_size : Nat) (space_saved : Int)
    (processing_time now : Nat) (r : ConversionRecord) : ConversionRecord :=
  if r.file_path = p ∧ r.status = .started then
    { r with status := .completed, converted_size := some converted_size,
             space_saved := some space_saved,
             processing_time := some processing_time,
             completed_at := some now }
  else r

/-- `mark_completed`: in a single transaction, update every `started`
row for the path to `completed` and increment the success ledger. -/
def mark_completed (db : ConversionDatabase) (p : String)
    (original_size converted_size processing_time now : Nat) :
    ConversionDatabase :=
  let saved : Int := (original_size : Int) - (converted_size : Int)
  { db with
    conversions := db.conversions.map
      (completeRow p converted_size saved processing_time now),
    statistics := { db.statistics with
      successful_conversions := db.statistics.successful_conversions + 1,
      total_original_size := db.statistics.total_original_size + original_size,
      total_converted_size := db.statistics.total_converted_size + converted_size,
      total_space_saved := db.statistics.total_space_saved + saved,
      total_processing_time := db.statistics.total_processing_time + processing_time,
      last_updated := now } }

/-- `mark_failed`: update every `started` row for the path to `failed`
and increment the failure counter, in one transaction. -/
def mark_failed (db : ConversionDatabase) (p msg : String) (now : Nat) :
    ConversionDatabase :=
  { db with
    conversions := db.conversions.map (fun r =>
      if r.file_path = p ∧ r.status = .started then
        { r with status := .failed, error_message := some msg,
                 completed_at := some now }
      else r),
    statistics := { db.statistics with
      failed_conversions := db.statistics.failed_conversions + 1,
      last_updated := now } }

/-- The `_get_connection` discipline: on a database error the whole
transaction is rolled back, otherwise it commits as a unit.  `dbError`
says whether the underlying store raised `sqlite3.Error`. -/
def markCompletedTxn (db : ConversionDatabase) (dbError : Bool) (p : String)
    (original_size converted_size processing_time now : Nat) :
    ConversionDatabase :=
  if dbError then db
  else db.mark_completed p original_size converted_size processing_time now

end ConversionDatabase

/-! ## State manager (`state_manager.py`)

The persisted state is a Python dict; keys a given dict may lack are
modelled as `Option` fields (`none` = key absent, so indexing raises
`KeyError`).  The orchestrator's `_execute_conversions` saves a dict
holding only `pending` and `timestamp`. -/

/-- Structured metadata map (`job_metadata`): `errors` and
`skipped_reasons` sub-dicts, each path ↦ (message, timestamp). -/
structure JobMeta where
  errors : Option (List (String × String × Nat))
  skipped_reasons : Option (List (String × String × Nat))
  deriving DecidableEq, Repr

/-- The state dict held in `StateManager.current_state` / written to
the state file. -/
structure StateData where
  version : Option Nat
  created_at : Option Nat
  updated_at : Option Nat
  timestamp : Option Nat
  pending : List String
  completed : Option (List String)
  failed : Option (List String)
  skipped : Option (List String)
  job_metadata : Option JobMeta
  deriving DecidableEq, Repr

/-- Add to a Python `set` modelled as a duplicate-free list. -/
def setAdd (s : List String) (x : String) : List String :=
  if x ∈ s then s else s ++ [x]

/-- `StateManager`: in-memory `current_state` plus the content of the
state file on disk (`none` = file absent). -/
structure StateManager where
  current_state : StateData
  file : Option StateData
  deriving DecidableEq, Repr

namespace StateManager

/-- `_default_state`. -/
def default_state (now : Nat) : StateData :=
  ⟨some 1, some now, some now, none, [], some [], some [], some [], some ⟨none, none⟩⟩

/-- A fresh manager (no state file yet). -/
def init (now : Nat) : StateManager :=
  ⟨default_state now, none⟩

/-- `save`: optionally replace `current_state`, stamp `updated_at`,
then write the whole state to the file (temp-file + atomic rename). -/
def save (sm : StateManager) (state : Option StateData) (now : Nat) : StateManager :=
  let st := match state with
    | some s => s
    | none => sm.current_state
  let st := { st with updated_at := some now }
  ⟨st, some st⟩

/-- `mark_completed`: drop the path from `pending`, add it to the
`completed` set, discard it from `failed`, then `save`.  Indexing a
missing `completed`/`failed` key raises `KeyError`; the `error` branch
carries the state as mutated up to the raise. -/
def mark_completed (sm : StateManager) (p : String) (now : Nat) :
    Except StateManager StateManager :=
  let sm := { sm with current_state :=
    { sm.current_state with pending := sm.current_state.pending.erase p } }
  match sm.current_state.completed with
  | none => .error sm
  | some comp =>
    let sm := { sm with current_state :=
      { sm.current_state with completed := some (setAdd comp p) } }
    match sm.current_state.failed with
    | none => .error sm
    | some fl =>
      let sm := { sm with current_state :=
        { sm.current_state with failed := some (fl.erase p) } }
      .ok (sm.save none now)

/-- `mark_failed`: drop the path from `pending`, add it to the `failed`
set, record the error message with a timestamp under
`job_metadata.errors`, then `save`. -/
def mark_failed (sm : StateManager) (p err : String) (now : Nat) :
    Except StateManager StateManager :=
  let sm := { sm with current_state :=
    { sm.current_state with pending := sm.current_state.pending.erase p } }
  match sm.current_state.failed with
  | none => .error sm
  | some fl =>
    let sm := { sm with current_state :=
      { sm.current_state with failed := some (setAdd fl p) } }
    match sm.current_state.job_metadata with
    | none => .error sm
    | some meta =>
      let errs := meta.errors.getD []
      let errs := errs.filter (fun e => e.1 ≠ p) ++ [(p, err, now)]
      let sm := { sm with current_state :=
        { sm.current_state with job_metadata := some { meta with errors := some errs } } }
      .ok (sm.save none now)

end StateManager

/-! ## Worker (`worker_pool.Worker`) -/

/-- Per-worker metrics record (`WorkerMetrics`). -/
structure WorkerMetrics where
  worker_id : Nat
  current_task : Option String
  tasks_completed : Nat
  tasks_failed : Nat
  total_processing_time : Nat
  cpu_affinity : List Nat
  is_busy : Bool
  last_task_time : Option Nat
  deriving DecidableEq, Repr

/-- Fresh metrics for worker `i`. -/
def WorkerMetrics.initWorker (i : Nat) : WorkerMetrics :=
  ⟨i, none, 0, 0, 0, [], false, none⟩

/-- The metrics invariant stated by the design: the busy flag is set
exactly when a current job is attributed to the worker. -/
def metricsInv (m : WorkerMetrics) : Prop :=
  m.is_busy = m.current_task.isSome

instance (m : WorkerMetrics) : Decidable (metricsInv m) := by
  unfold metricsInv; infer_instance

/-- Successful conversion result dict returned by
`VideoEncoder.convert_video`. -/
structure ConvResult where
  output_size : Nat
  duration : Nat
  deriving DecidableEq, Repr

/-- The four ways one call to `encoder.convert_video` can end, as seen
from `Worker.process`: a success dict; a `None` return (output not
smaller than input, file deleted); a raised typed `ConversionError`;
any other raised exception. -/
inductive EncodeOutcome where
  | success (r : ConvResult)
  | skippedLarger
  | convError (msg : String)
  | unexpectedErr (msg : String)
  deriving DecidableEq, Repr

/-- The observable state of the worker's metrics while the encoder is
running (set on entry to `process`, before dispatch). -/
def Worker.runningState (m : WorkerMetrics) (p : String) : WorkerMetrics :=
  { m with is_busy := true, current_task := some p }

/-- `Worker.process`: sets busy/current task, dispatches to the
encoder, updates counters according to the outcome (any non-raising
return — including the skip `None` — lands in the success branch), and
clears busy/current task on every exit path (`finally`).  `elapsed` is
the measured wall-clock duration, `now` the completion instant. -/
def Worker.process (m : WorkerMetrics) (p : String) (elapsed now : Nat)
    (out : EncodeOutcome) : WorkerMetrics × Option ConvResult :=
  let run := Worker.runningState m p
  match out with
  | .success r =>
    ({ run with tasks_completed := run.tasks_completed + 1,
                total_processing_time := run.total_processing_time + elapsed,
                last_task_time := some now,
                is_busy := false, current_task := none }, some r)
  | .skippedLarger =>
    ({ run with tasks_completed := run.tasks_completed + 1,
                total_processing_time := run.total_processing_time + elapsed,
                last_task_time := some now,
                is_busy := false, current_task := none }, none)
  | .convError _ =>
    ({ run with tasks_failed := run.tasks_failed + 1,
                is_busy := false, current_task := none }, none)
  | .unexpectedErr _ =>
    ({ run with tasks_failed := run.tasks_failed + 1,
                is_busy := false, current_task := none }, none)

/-- A single worker draining a job list in FIFO order (the pool of
size 1: each submission waits for the lone worker, so jobs run and
complete strictly in submission order).  Returns the final metrics and
the completion sequence (path, result) in completion order. -/
def runSeq (m : WorkerMetrics) (jobs : List (String × VideoAnalysis))
    (outcomes : String → EncodeOutcome) (elapsed : String → Nat) (now : Nat) :
    WorkerMetrics × List (String × Option ConvResult) :=
  match jobs with
  | [] => (m, [])
  | (p, _) :: rest =>
    let (m', r) := Worker.process m p (elapsed p) now (outcomes p)
    let (mFin, rs) := runSeq m' rest outcomes elapsed now
    (mFin, (p, r) :: rs)

/-! ## Orchestrator (`orchestrator.py`)

The scanner and the analyzer are external collaborators: the candidate
file list and the per-file analysis outcome (`none` = analysis raised)
are inputs of the model, as is the encoder outcome of each scheduled
job. -/

namespace ConversionOrchestrator

/-- Stable insertion of a job into a size-descending list — the effect
of Python's stable `list.sort(key=file_size, reverse=True)`. -/
def insertBySize (x : String × VideoAnalysis) :
    List (String × VideoAnalysis) → List (String × VideoAnalysis)
  | [] => [x]
  | y :: ys =>
    if y.2.file_size ≤ x.2.file_size then x :: y :: ys
    else y :: insertBySize x ys

/-- Stable sort, descending by `file_size`. -/
def sortBySize : List (String × VideoAnalysis) → List (String × VideoAnalysis)
  | [] => []
  | x :: xs => insertBySize x (sortBySize xs)

/-- The per-file branch of `_filter_conversions`'s loop: skip on failed
analysis; skip when already converted unless `force`; keep only files
whose analysis wants conversion. -/
def filterStep (db : ConversionDatabase) (force : Bool)
    (analyze : String → Option VideoAnalysis) (v : String) :
    Option (String × VideoAnalysis) :=
  match analyze v with
  | none => none
  | some a =>
    if ¬force ∧ db.is_converted v then none
    else if a.needs_conversion then some (v, a)
    else none

/-- `_filter_conversions`: apply the filtering policy in input order,
then sort the survivors descending by original byte size. -/
def filterConversions (db : ConversionDatabase) (files : List String)
    (analyze : String → Option VideoAnalysis) (force : Bool) :
    List (String × VideoAnalysis) :=
  sortBySize (files.filterMap (filterStep db force analyze))

/-- `_analyze_videos`'s persistent effect: each successful analysis is
cached in the `videos` table (failed analyses store nothing). -/
def analyzeVideos (db : ConversionDatabase) (files : List String)
    (analyze : String → Option VideoAnalysis) : ConversionDatabase :=
  files.foldl (fun d v =>
    match analyze v with
    | some a => d.store_analysis v a
    | none => d) db

/-- A value in the `results` list of `_execute_conversions`: what one
element of `asyncio.gather(*tasks, return_exceptions=True)` is.  The
loop's code branches on an exception object, `None`, or a subscriptable
result dict — but `WorkerPool.submit` is an `async def` that the
orchestrator calls *without* `await`, so each gathered element is in
fact the `asyncio.Task` object that `submit` returns (`taskObj`), never
the conversion outcome. -/
inductive JobOutcome where
  | ok (r : ConvResult)
  | noneResult
  | exn (msg : String)
  | taskObj
  deriving DecidableEq, Repr

/-- Running tallies of `_execute_conversions`'s result loop. -/
structure Tally where
  successful : Nat
  failed : Nat
  skipped : Nat
  deriving DecidableEq, Repr

/-- The result-processing loop of `_execute_conversions` (lines
314-333): an exception object is recorded as failed in the database
only; a `None` result is tallied as skipped with no persistence; a
result dict updates the database and then the state manager (whose
`KeyError` on the pending-only saved dict would abort the loop).  An
`asyncio.Task` element is not an exception and not `None`, so the dict
branch subscripts it and raises `TypeError` at `result['output_size']`,
aborting the loop before any tally or persistence call for that job.
An abort leaves the loop's earlier mutations in place and is reported
as `false`. -/
def processResults (db : ConversionDatabase) (sm : StateManager) (t : Tally)
    (now : Nat) :
    List (String × VideoAnalysis × JobOutcome) →
    ConversionDatabase × StateManager × Tally × Bool
  | [] => (db, sm, t, true)
  | (p, a, r) :: rest =>
    match r with
    | .exn msg =>
      processResults (db.mark_failed p msg now) sm
        { t with failed := t.failed + 1 } now rest
    | .noneResult =>
      processResults db sm { t with skipped := t.skipped + 1 } now rest
    | .ok res =>
      let db' := db.mark_completed p a.file_size res.output_size res.duration now
      let t' := { t with successful := t.successful + 1 }
      match sm.mark_completed p now with
      | .ok sm' => processResults db' sm' t' now rest
      | .error sm' => (db', sm', t', false)
    | .taskObj => (db, sm, t, false)

/-- The dict `_execute_conversions` hands to `StateManager.save`: only
the `pending` list and a timestamp — no `version`, `completed`,
`failed`, `skipped` or `job_metadata` keys. -/
def pendingState (paths : List String) (now : Nat) : StateData :=
  ⟨none, none, none, some now, paths, none, none, none, none⟩

/-- Outcome of one orchestrator run. -/
structure RunResult where
  db : ConversionDatabase
  sm : StateManager
  /-- Paths submitted to the worker pool, in submission order. -/
  submitted : List String
  /-- Jobs listed by the dry-run preview. -/
  previewed : List String
  tally : Tally
  ok : Bool
  deriving Repr

/-- `_execute_conversions`: persist the candidate set as `pending`,
then call the pool's `submit` once per job — but `submit` is an
`async def` invoked without `await`, so `tasks` holds the submit
coroutines and `asyncio.gather` resolves each to the `asyncio.Task`
object that `submit` returns.  The conversions themselves run as
background tasks (their effect on worker metrics is `Worker.process`;
they never touch the database or the state manager, and `outcomes` and
`elapsed` drive only them), while the result loop sees one `taskObj`
per job and aborts with `TypeError` on the first one.  The final
`return failed == 0` is reached only if the loop finished; on the
abort, `run`'s exception handler returns `false`. -/
def executeConversions (db : ConversionDatabase) (sm : StateManager)
    (convs : List (String × VideoAnalysis))
    (outcomes : String → EncodeOutcome) (elapsed : String → Nat) (now : Nat) :
    RunResult :=
  let sm1 := sm.save (some (pendingState (convs.map Prod.fst) now)) now
  let results := convs.map (fun pa => (pa.1, pa.2, JobOutcome.taskObj))
  let (db', sm', t, done) := processResults db sm1 ⟨0, 0, 0⟩ now results
  ⟨db', sm', convs.map Prod.fst, [], t, done && t.failed == 0⟩

/-- `run`: scan (the candidate list is an input), analyze, filter, then
either preview (dry run) or execute.  An empty scan returns `false`;
an empty conversion list returns `true`; an uncaught exception inside
execution makes `run` return `false` after cleanup. -/
def run (db : ConversionDatabase) (sm : StateManager) (files : List String)
    (analyze : String → Option VideoAnalysis)
    (outcomes : String → EncodeOutcome) (elapsed : String → Nat)
    (dryRun force : Bool) (now : Nat) : RunResult :=
  if files.isEmpty then ⟨db, sm, [], [], ⟨0, 0, 0⟩, false⟩
  else
    let db1 := analyzeVideos db files analyze
    let convs := filterConversions db1 files analyze force
    if convs.isEmpty then ⟨db1, sm, [], [], ⟨0, 0, 0⟩, true⟩
    else if dryRun then ⟨db1, sm, [], convs.map Prod.fst, ⟨0, 0, 0⟩, true⟩
    else executeConversions db1 sm convs outcomes elapsed now

end ConversionOrchestrator

/-! ## Worker-pool shutdown discipline (`WorkerPool`)

`_process_task` awaits `_get_available_worker` and then — with no
intervening suspension point — checks `shutdown_event` and either
returns `None` or calls `Worker.process` on the free worker.  Under
cooperative (asyncio) scheduling the check and the job start are one
atomic step, so a submitted task evolves by exactly the labelled
transitions below: it may start only while the event is unset, it is
skipped once the event is set, and an in-flight job may always run to
completion.  Worker availability only gates *when* a start step can
fire and is abstracted away here; it cannot enable a start that the
shutdown check forbids. -/

/-- Lifecycle of one submitted task: waiting for a worker, executing on
a worker, or resolved (result, skip or failure). -/
inductive TaskPhase where
  | waiting
  | running
  | finished
  deriving DecidableEq, Repr

/-- Pool state: the `shutdown_event` flag and the phase of every
submitted task. -/
structure PoolState where
  shuttingDown : Bool
  tasks : List TaskPhase
  deriving DecidableEq, Repr

/-- Labels of pool transitions. -/
inductive PoolLabel where
  | startJob (i : Nat)
  | skipJob (i : Nat)
  | finishJob (i : Nat)
  | shutdownCall
  deriving DecidableEq, Repr

/-- One cooperative step of the pool.  `startJob` is the atomic
shutdown-check-then-dispatch of `_process_task`; `skipJob` is its
early `None` return once the event is set; `finishJob` is a worker
completing (or failing) its in-flight job; `shutdownCall` is
`shutdown()` setting the event. -/
inductive PoolStep : PoolState → PoolLabel → PoolState → Prop where
  | startJob (s : PoolState) (i : Nat)
      (hw : s.tasks.get? i = some .waiting) (hs : s.shuttingDown = false) :
      PoolStep s (.startJob i) ⟨s.shuttingDown, s.tasks.set i .running⟩
  | skipJob (s : PoolState) (i : Nat)
      (hw : s.tasks.get? i = some .waiting) (hs : s.shuttingDown = true) :
      PoolStep s (.skipJob i) ⟨s.shuttingDown, s.tasks.set i .finished⟩
  | finishJob (s : PoolState) (i : Nat)
      (hw : s.tasks.get? i = some .running) :
      PoolStep s (.finishJob i) ⟨s.shuttingDown, s.tasks.set i .finished⟩
  | shutdownCall (s : PoolState) :
      PoolStep s .shutdownCall ⟨true, s.tasks⟩

/-- A run of the pool from a state: each trace entry records the label
taken and the state reached. -/
inductive PoolRun : PoolState → List (PoolLabel × PoolState) → Prop where
  | nil (s : PoolState) : PoolRun s []
  | cons {s : PoolState} {l : PoolLabel} {s' : PoolState}
      {tr : List (PoolLabel × PoolState)}
      (hstep : PoolStep s l s') (hrun : PoolRun s' tr) :
      PoolRun s ((l, s') :: tr)

/-! ## Concrete inputs used by the scenario evaluations -/

/-- An h264 analysis of a 100-byte file that wants conversion. -/
def demoA : VideoAnalysis := ⟨"h264", 100, true, "codec h264 should be converted"⟩

/-- Analyzer knowing only `v.mkv`. -/
def analyzeOne : String → Option VideoAnalysis :=
  fun v => if v = "v.mkv" then some demoA else none

/-- Analyses for the three scenario-A files. -/
def a500 : VideoAnalysis := ⟨"h264", 524288000, true, "codec h264 should be converted"⟩

def a100 : VideoAnalysis := ⟨"h264", 104857600, true, "codec h264 should be converted"⟩

def a10 : VideoAnalysis := ⟨"h264", 10485760, true, "codec h264 should be converted"⟩

/-- Analyzer for the three scenario-A files. -/
def analyzeThree : String → Option VideoAnalysis :=
  fun v =>
    if v = "small.mkv" then some a10
    else if v = "mid.mkv" then some a100
    else if v = "big.mkv" then some a500
    else none

/-- A database holding one cached analysis and one `started` conversion
row for `v.mkv` (as `mark_started` would leave it). -/
def demoDb : ConversionDatabase :=
  ⟨[("v.mkv", demoA)],
   [⟨"v.mkv", .started, 100, none, none, none, none, some 0, none⟩],
   .init⟩

/-- Demo pool states: two submitted tasks; task 0 starts, `shutdown()`
is called, task 1 is skipped, task 0 drains to completion. -/
def demoS0 : PoolState := ⟨false, [.waiting, .waiting]⟩

def demoS1 : PoolState := ⟨false, [.running, .waiting]⟩

def demoS2 : PoolState := ⟨true, [.running, .waiting]⟩

def demoS3 : PoolState := ⟨true, [.running, .finished]⟩

def demoS4 : PoolState := ⟨true, [.finished, .finished]⟩

/-- The demo trace of those four steps. -/
def demoTr : List (PoolLabel × PoolState) :=
  [(.startJob 0, demoS1), (.shutdownCall, demoS2),
   (.skipJob 1, demoS3), (.finishJob 0, demoS4)]

/-- The run with one candidate file whose encoder raises a typed
`ConversionError`. -/
def rFail : ConversionOrchestrator.RunResult :=
  ConversionOrchestrator.run .init (.init 0) ["v.mkv"] analyzeOne
    (fun _ => .convError "ffmpeg exit 1") (fun _ => 1) false false 5

/-- The run with one candidate file whose encoder succeeds (output 60
bytes in 7 ticks). -/
def rSucc : ConversionOrchestrator.RunResult :=
  ConversionOrchestrator.run .init (.init 0) ["v.mkv"] analyzeOne
    (fun _ => .success ⟨60, 7⟩) (fun _ => 1) false false 5

/-- The same single-file batch run in dry-run mode. -/
def rDry : ConversionOrchestrator.RunResult :=
  ConversionOrchestrator.run .init (.init 0) ["v.mkv"] analyzeOne
    (fun _ => .success ⟨60, 7⟩) (fun _ => 1) true false 5

/-- The run with one candidate file whose encoder returns `None`
(skip-if-larger: output not smaller than input, output file deleted). -/
def rSkip : ConversionOrchestrator.RunResult :=
  ConversionOrchestrator.run .init (.init 0) ["v.mkv"] analyzeOne
    (fun _ => .skippedLarger) (fun _ => 1) false false 5

/-! ## Helper lemmas -/

open ConversionOrchestrator

theorem mem_insertBySize (a x : String × VideoAnalysis) :
    ∀ l, x ∈ insertBySize a l ↔ x = a ∨ x ∈ l
  | [] => by simp [insertBySize]
  | y :: ys => by
    simp only [insertBySize]
    split
    · simp [List.mem_cons]
    · rw [List.mem_cons, mem_insertBySize a x ys, List.mem_cons]
      tauto

theorem mem_sortBySize (x : String × VideoAnalysis) :
    ∀ l, x ∈ sortBySize l ↔ x ∈ l
  | [] => Iff.rfl
  | y :: ys => by
    rw [sortBySize, mem_insertBySize, mem_sortBySize x ys, List.mem_cons]

/-- The head of `insertBySize a l` is `a` or the head of `l`. -/
theorem head?_insertBySize (a : String × VideoAnalysis) :
    ∀ l, (insertBySize a l).head? = some a ∨ (insertBySize a l).head? = l.head?
  | [] => .inl rfl
  | y :: ys => by
    simp only [insertBySize]
    split
    · exact .inl rfl
    · exact .inr rfl

/-- Inserting keeps a size-descending list size-descending. -/
theorem chain'_insertBySize (a : String × VideoAnalysis) :
    ∀ l, List.Chain' (fun x y => y.2.file_size ≤ x.2.file_size) l →
      List.Chain' (fun x y => y.2.file_size ≤ x.2.file_size) (insertBySize a l)
  | [], _ => List.chain'_singleton a
  | y :: ys, h => by
    have h' := List.chain'_cons'.mp h
    simp only [insertBySize]
    split
    · exact h.cons (by assumption)
    · next hgt =>
      refine List.chain'_cons'.mpr ⟨?_, chain'_insertBySize a ys h'.2⟩
      intro b hb
      rcases head?_insertBySize a ys with he | he
      · rw [he] at hb
        cases hb
        exact le_of_lt (Nat.lt_of_not_le hgt)
      · rw [he] at hb
        exact h'.1 b hb

/-- The output of the size sort is descending. -/
theorem chain'_sortBySize :
    ∀ l, List.Chain' (fun x y => y.2.file_size ≤ x.2.file_size) (sortBySize l)
  | [] => List.chain'_nil
  | y :: ys => chain'_insertBySize y (sortBySize ys) (chain'_sortBySize ys)

/-- Exactly when `_filter_conversions`'s loop keeps a file. -/
theorem filterStep_eq_some (db : ConversionDatabase) (force : Bool)
    (analyze : String → Option VideoAnalysis) (v w : String) (a : VideoAnalysis) :
    filterStep db force analyze v = some (w, a) ↔
      w = v ∧ analyze v = some a ∧ a.needs_conversion = true ∧
        (force = true ∨ db.is_converted v = false) := by
  rcases h : analyze v with _ | b
  · unfold filterStep
    rw [h]
    simp
  · have e : filterStep db force analyze v =
        (if ¬force = true ∧ db.is_converted v = true then none
         else if b.needs_conversion = true then some (v, b) else none) := by
      unfold filterStep
      rw [h]
    rw [e]
    constructor
    · intro hsome
      split at hsome
      · exact absurd hsome (by simp)
      · next hcond =>
        split at hsome
        · next hneed =>
          rw [Option.some_inj, Prod.mk.injEq] at hsome
          obtain ⟨hvw, hba⟩ := hsome
          subst hba
          refine ⟨hvw.symm, rfl, hneed, ?_⟩
          by_cases hfc : force = true
          · exact .inl hfc
          · refine .inr ?_
            by_cases hcv : db.is_converted v = true
            · exact absurd ⟨hfc, hcv⟩ hcond
            · exact Bool.eq_false_iff.mpr hcv
        · exact absurd hsome (by simp)
    · rintro ⟨rfl, ha, hneed, hforce⟩
      rw [Option.some_inj] at ha
      subst ha
      rw [if_neg, if_pos hneed]
      rintro ⟨hnf, hconv⟩
      rcases hforce with hf | hf
      · exact hnf hf
      · rw [hf] at hconv
        exact Bool.false_ne_true hconv

/-- A single worker completes jobs in submission order. -/
theorem runSeq_order (outcomes : String → EncodeOutcome) (elapsed : String → Nat)
    (now : Nat) :
    ∀ (jobs : List (String × VideoAnalysis)) (m : WorkerMetrics),
      (runSeq m jobs outcomes elapsed now).2.map Prod.fst = jobs.map Prod.fst
  | [], _ => rfl
  | (p, a) :: rest, m => by
    simp only [runSeq]
    rw [List.map_cons, List.map_cons]
    exact congrArg (p :: ·) (runSeq_order outcomes elapsed now rest _)

/-- Caching analyses touches only the `videos` table. -/
theorem analyzeVideos_conversions (analyze : String → Option VideoAnalysis) :
    ∀ (files : List String) (db : ConversionDatabase),
      (analyzeVideos db files analyze).conversions = db.conversions := by
  intro files
  induction files with
  | nil => intro db; rfl
  | cons v vs ih =>
    intro db
    rw [analyzeVideos, List.foldl_cons]
    exact (ih _).trans (by rcases analyze v with _ | a <;> rfl)

/-- Caching analyses leaves the statistics ledger untouched. -/
theorem analyzeVideos_statistics (analyze : String → Option VideoAnalysis) :
    ∀ (files : List String) (db : ConversionDatabase),
      (analyzeVideos db files analyze).statistics = db.statistics := by
  intro files
  induction files with
  | nil => intro db; rfl
  | cons v vs ih =>
    intro db
    rw [analyzeVideos, List.foldl_cons]
    exact (ih _).trans (by rcases analyze v with _ | a <;> rfl)

/-- Caching analyses does not change which paths count as converted. -/
theorem is_converted_analyzeVideos (db : ConversionDatabase)
    (files : List String) (analyze : String → Option VideoAnalysis) (v : String) :
    (analyzeVideos db files analyze).is_converted v = db.is_converted v := by
  unfold ConversionDatabase.is_converted
  rw [analyzeVideos_conversions]

/-- Filtering against the database after the analysis step caches into
it gives the same scheduled list as filtering against the database
before (the filter reads only the `conversions` table). -/
theorem filterConversions_analyzeVideos (db : ConversionDatabase)
    (files : List String) (analyze : String → Option VideoAnalysis) (force : Bool) :
    filterConversions (analyzeVideos db files analyze) files analyze force
      = filterConversions db files analyze force := by
  unfold filterConversions
  have hstep : filterStep (analyzeVideos db files analyze) force analyze
      = filterStep db force analyze := by
    funext v
    unfold filterStep
    simp only [is_converted_analyzeVideos]
  rw [hstep]

/-- The real effect of `_execute_conversions` on the stores: the
pending set is saved, the jobs are submitted, and the result loop —
fed `asyncio.Task` objects — tallies nothing and touches neither the
database nor the state manager again. -/
theorem executeConversions_frame (db : ConversionDatabase) (sm : StateManager)
    (convs : List (String × VideoAnalysis))
    (outcomes : String → EncodeOutcome) (elapsed : String → Nat) (now : Nat) :
    (executeConversions db sm convs outcomes elapsed now).tally = ⟨0, 0, 0⟩ ∧
    (executeConversions db sm convs outcomes elapsed now).db = db ∧
    (executeConversions db sm convs outcomes elapsed now).sm
      = sm.save (some (pendingState (convs.map Prod.fst) now)) now ∧
    (executeConversions db sm convs outcomes elapsed now).submitted
      = convs.map Prod.fst ∧
    (executeConversions db sm convs outcomes elapsed now).ok = convs.isEmpty := by
  cases convs <;> exact ⟨rfl, rfl, rfl, rfl, rfl⟩

/-- No pool step ever clears the shutdown flag. -/
theorem poolStep_mono {s : PoolState} {l : PoolLabel} {s' : PoolState}
    (h : PoolStep s l s') (hs : s.shuttingDown = true) :
    s'.shuttingDown = true := by
  cases h <;> simp_all

/-- From a state with the shutdown flag set, no trace ever takes a
`startJob` step. -/
theorem poolRun_noStart :
    ∀ {s : PoolState} {tr : List (PoolLabel × PoolState)}, PoolRun s tr →
      s.shuttingDown = true →
      ∀ q ∈ tr, ∀ i, q.1 ≠ PoolLabel.startJob i := by
  intro s tr h
  induction h with
  | nil => intro _ q hq; simp at hq
  | cons hstep hrun ih =>
    intro hs q hq i
    rcases List.mem_cons.mp hq with h1 | h2
    · subst h1
      intro hl
      have hl' : _ = PoolLabel.startJob i := hl
      subst hl'
      cases hstep
      simp_all
    · exact ih (poolStep_mono hstep hs) q h2 i

/-- Every trace entry was produced by a pool step, and the remainder of
the trace is a run from the state it reached. -/
theorem poolRun_stepAt :
    ∀ {s : PoolState} {tr : List (PoolLabel × PoolState)}, PoolRun s tr →
      ∀ (j : Nat) (l : PoolLabel) (sj : PoolState), tr.get? j = some (l, sj) →
        (∃ sp, PoolStep sp l sj) ∧ PoolRun sj (tr.drop (j + 1)) := by
  intro s tr h
  induction h with
  | nil => intro j l sj hj; simp at hj
  | cons hstep hrun ih =>
    intro j l sj hj
    cases j with
    | zero =>
      simp only [List.get?_cons_zero, Option.some_inj] at hj
      obtain ⟨rfl, rfl⟩ := Prod.mk.injEq .. ▸ (And.intro (congrArg Prod.fst hj) (congrArg Prod.snd hj))
      exact ⟨⟨_, hstep⟩, by simpa using hrun⟩
    | succ n =>
      simp only [List.get?_cons_succ] at hj
      simpa using ih n l sj hj

/-! ## Claim theorems -/

/-- C1: a candidate file is scheduled for conversion iff its analysis
succeeded with `needs_conversion = true` and either force mode is set
or `is_converted` is false.  Moreover, in every run whatever is
submitted to the pool is exactly the filtered list (or nothing, on the
early-return branches), so a filtered-out file is never scheduled, and
the run's failed tally stays zero — in particular no filtered-out file
is ever counted as a failure. -/
theorem C1_scheduling_policy (db : ConversionDatabase) (files : List String)
    (analyze : String → Option VideoAnalysis) (force : Bool)
    (v : String) (a : VideoAnalysis) :
    ((v, a) ∈ filterConversions db files analyze force ↔
      v ∈ files ∧ analyze v = some a ∧ a.needs_conversion = true ∧
        (force = true ∨ db.is_converted v = false)) ∧
    (∀ (sm : StateManager) (outcomes : String → EncodeOutcome)
        (elapsed : String → Nat) (dryRun : Bool) (now : Nat),
      ((ConversionOrchestrator.run db sm files analyze outcomes elapsed
          dryRun force now).submitted = [] ∨
        (ConversionOrchestrator.run db sm files analyze outcomes elapsed
          dryRun force now).submitted
          = (filterConversions db files analyze force).map Prod.fst) ∧
      (ConversionOrchestrator.run db sm files analyze outcomes elapsed
        dryRun force now).tally.failed = 0) := by
  constructor
  · unfold filterConversions
    rw [mem_sortBySize, List.mem_filterMap]
    constructor
    · rintro ⟨w, hw, hf⟩
      obtain ⟨rfl, h2, h3, h4⟩ := (filterStep_eq_some db force analyze w v a).mp hf
      exact ⟨hw, h2, h3, h4⟩
    · rintro ⟨hv, h2, h3, h4⟩
      exact ⟨v, hv, (filterStep_eq_some db force analyze v v a).mpr ⟨rfl, h2, h3, h4⟩⟩
  · intro sm outcomes elapsed dryRun now
    unfold ConversionOrchestrator.run
    by_cases h0 : files.isEmpty
    · obtain rfl : files = [] := List.isEmpty_iff.mp h0
      exact ⟨.inl rfl, rfl⟩
    · simp only [h0, Bool.false_eq_true, if_false]
      by_cases hc : (filterConversions (analyzeVideos db files analyze)
          files analyze force).isEmpty
      · simp only [hc, if_true]
        refine ⟨.inl ?_, ?_⟩ <;> trivial
      · simp only [hc, Bool.false_eq_true, if_false]
        by_cases hd : dryRun = true
        · simp only [hd, if_true]
          refine ⟨.inl ?_, ?_⟩ <;> trivial
        · simp only [hd, Bool.false_eq_true, if_false]
          obtain ⟨ht, _, _, hsub, _⟩ := executeConversions_frame
            (analyzeVideos db files analyze) sm
            (filterConversions (analyzeVideos db files analyze) files analyze force)
            outcomes elapsed now
          refine ⟨.inr ?_, ?_⟩
          · rw [hsub, filterConversions_analyzeVideos]
          · rw [ht]

/-- C2: with one scheduled job whose encoder raises a typed
`ConversionError`, the run does return `false` — but only because the
result loop crashes with `TypeError` on the un-awaited submit's Task
object.  Nothing claimed about the bookkeeping happens: the StateStore
keeps the path in `pending` (its saved dict has no `failed` key and no
metadata; `state_manager.mark_failed` is dead code), the ResultStore's
failed counter stays 0 and its `conversions` table stays empty, and no
job is tallied at all. -/
theorem C2_typed_failure_dropped :
    rFail.ok = false ∧
    rFail.tally = ⟨0, 0, 0⟩ ∧
    rFail.db.statistics.failed_conversions = 0 ∧
    rFail.db.conversions = [] ∧
    rFail.sm.current_state.pending = ["v.mkv"] ∧
    rFail.sm.current_state.failed = none ∧
    rFail.sm.current_state.job_metadata = none ∧
    rFail.sm.file = some rFail.sm.current_state := by
  exact ⟨rfl, rfl, rfl, rfl, rfl, rfl, rfl, rfl⟩

/-- C3: the run's boolean is not `true iff zero jobs ended Failed`: a
batch whose only job converts successfully — zero jobs ended Failed
anywhere (the ledger and `conversions` table are untouched) — still
returns `false`, because the result loop receives the un-awaited
submit's Task object and raises `TypeError` before `failed == 0` is
ever evaluated. -/
theorem C3_success_flag_mismatch :
    rSucc.ok = false ∧
    rSucc.tally = ⟨0, 0, 0⟩ ∧
    rSucc.db.statistics = Statistics.init ∧
    rSucc.db.conversions = [] := by
  exact ⟨rfl, rfl, rfl, rfl⟩

/-- C4: after run 1 converts a fresh path successfully (`force =
false`), the ResultStore holds no conversion row at all for the path
and the ledger still shows zero successes — `database.mark_completed`
is never reached, since the result loop raises `TypeError` on the Task
object first (and `mark_started` being dead code, even a reached
`mark_completed` would update zero rows).  `is_converted` stays false
and run 2's filtering schedules the path again instead of excluding
it. -/
theorem C4_resubmission_not_excluded :
    rSucc.db.conversions = [] ∧
    rSucc.db.statistics.successful_conversions = 0 ∧
    ConversionDatabase.is_converted rSucc.db "v.mkv" = false ∧
    ("v.mkv", demoA) ∈ filterConversions rSucc.db ["v.mkv"] analyzeOne false := by
  refine ⟨rfl, rfl, rfl, ?_⟩
  decide

/-- C5: `mark_completed` increments the success ledger (count, byte
totals, processing time) in the same transaction in which it rewrites
conversion rows, a row is transitioned to `completed` only if it was a
`started` row for that path (any other row is left unchanged), and a
database error rolls the whole transaction back. -/
theorem C5_mark_completed_atomic (db : ConversionDatabase) (p : String)
    (o c t now : Nat) :
    ((db.mark_completed p o c t now).statistics.successful_conversions
        = db.statistics.successful_conversions + 1 ∧
      (db.mark_completed p o c t now).statistics.total_original_size
        = db.statistics.total_original_size + o ∧
      (db.mark_completed p o c t now).statistics.total_converted_size
        = db.statistics.total_converted_size + c ∧
      (db.mark_completed p o c t now).statistics.total_space_saved
        = db.statistics.total_space_saved + ((o : Int) - (c : Int)) ∧
      (db.mark_completed p o c t now).statistics.total_processing_time
        = db.statistics.total_processing_time + t) ∧
    (∀ (i : Nat) (r : ConversionRecord), db.conversions.get? i = some r →
      (db.mark_completed p o c t now).conversions.get? i =
        some (if r.file_path = p ∧ r.status = .started then
                { r with status := .completed, converted_size := some c,
                         space_saved := some ((o : Int) - (c : Int)),
                         processing_time := some t, completed_at := some now }
              else r)) ∧
    (db.markCompletedTxn true p o c t now = db ∧
      db.markCompletedTxn false p o c t now = db.mark_completed p o c t now) := by
  refine ⟨⟨rfl, rfl, rfl, rfl, rfl⟩, ?_, rfl, rfl⟩
  intro i r h
  show (db.conversions.map _).get? i = _
  rw [List.get?_map, h]
  rfl

/-- C5 witness: completing `v.mkv` on a database holding one `started`
row turns that row into the expected `completed` row. -/
theorem C5_witness :
    (demoDb.mark_completed "v.mkv" 100 60 7 3).conversions.get? 0
      = some ⟨"v.mkv", .completed, 100, some 60, some 40, some 7, none, some 0, some 3⟩ := by
  have h := (C5_mark_completed_atomic demoDb "v.mkv" 100 60 7 3).2.1 0
    ⟨"v.mkv", .started, 100, none, none, none, none, some 0, none⟩ rfl
  exact h.trans (by decide)

/-- C6 counterexample: a dry run is claimed to leave every ResultStore
table unchanged, but the analysis step caches each successful analysis,
so the `videos` table differs after a dry run over one fresh file. -/
theorem C6_counterexample : rDry.db.videos ≠ ConversionDatabase.init.videos := by
  decide

/-- C6 (amended): a dry run performs scanning, analysis and filtering
and previews the filtered jobs, submits nothing to the worker pool, and
leaves the StateStore and the `conversions` and `statistics` tables
unchanged — but the `videos` analysis-cache table is updated exactly as
the analysis step dictates. -/
theorem C6_dry_run_frame (db : ConversionDatabase) (sm : StateManager)
    (files : List String) (analyze : String → Option VideoAnalysis)
    (outcomes : String → EncodeOutcome) (elapsed : String → Nat)
    (force : Bool) (now : Nat) :
    (ConversionOrchestrator.run db sm files analyze outcomes elapsed true force now).sm = sm ∧
    (ConversionOrchestrator.run db sm files analyze outcomes elapsed true force now).submitted = [] ∧
    (ConversionOrchestrator.run db sm files analyze outcomes elapsed true force now).db.conversions
      = db.conversions ∧
    (ConversionOrchestrator.run db sm files analyze outcomes elapsed true force now).db.statistics
      = db.statistics ∧
    (ConversionOrchestrator.run db sm files analyze outcomes elapsed true force now).db.videos
      = (analyzeVideos db files analyze).videos ∧
    (ConversionOrchestrator.run db sm files analyze outcomes elapsed true force now).previewed
      = (filterConversions (analyzeVideos db files analyze) files analyze force).map Prod.fst := by
  unfold ConversionOrchestrator.run
  by_cases h0 : files.isEmpty
  · obtain rfl : files = [] := List.isEmpty_iff.mp h0
    exact ⟨rfl, rfl, rfl, rfl, rfl, rfl⟩
  · simp only [h0, if_false, Bool.false_eq_true]
    by_cases hc : (filterConversions (analyzeVideos db files analyze) files analyze force).isEmpty
    · obtain he := List.isEmpty_iff.mp hc
      simp only [hc, if_true, he]
      refine ⟨?_, ?_, ?_, ?_, ?_, ?_⟩ <;>
        first
          | trivial
          | exact analyzeVideos_conversions analyze files db
          | exact analyzeVideos_statistics analyze files db
    · simp only [hc, if_false, if_true, Bool.false_eq_true]
      refine ⟨?_, ?_, ?_, ?_, ?_, ?_⟩ <;>
        first
          | trivial
          | exact analyzeVideos_conversions analyze files db
          | exact analyzeVideos_statistics analyze files db

/-- C7: in every pool trace, once a `shutdown()` step has been taken no
later step starts a job (submissions still waiting can only be skipped),
while a worker with an in-flight job can always take its finish step. -/
theorem C7_no_start_after_shutdown (s : PoolState)
    (tr : List (PoolLabel × PoolState)) (hrun : PoolRun s tr) :
    (∀ (j m : Nat) (sj : PoolState) (q : PoolLabel × PoolState),
      tr.get? j = some (.shutdownCall, sj) →
      tr.get? (j + 1 + m) = some q →
      ∀ i, q.1 ≠ PoolLabel.startJob i) ∧
    (∀ (s' : PoolState) (i : Nat), s'.tasks.get? i = some .running →
      PoolStep s' (.finishJob i) ⟨s'.shuttingDown, s'.tasks.set i .finished⟩) := by
  constructor
  · intro j m sj q hj hq i
    obtain ⟨⟨sp, hstep⟩, hsuffix⟩ := poolRun_stepAt hrun j .shutdownCall sj hj
    have hsj : sj.shuttingDown = true := by cases hstep; rfl
    have hmem : q ∈ tr.drop (j + 1) := by
      have hdrop : (tr.drop (j + 1)).get? m = some q := by
        rw [List.get?_drop]
        exact hq
      exact List.get?_mem hdrop
    exact poolRun_noStart hsuffix hsj q hmem i
  · intro s' i h
    exact PoolStep.finishJob s' i h

/-- C7 witness: in the demo trace (start job 0, shut down, skip job 1,
finish job 0), the step after the shutdown is not a job start. -/
theorem C7_witness : (PoolLabel.skipJob 1, demoS3).1 ≠ PoolLabel.startJob 0 := by
  have hrun : PoolRun demoS0 demoTr := by
    refine .cons (PoolStep.startJob demoS0 0 (by decide) (by decide)) ?_
    refine .cons (PoolStep.shutdownCall demoS1) ?_
    refine .cons (PoolStep.skipJob demoS2 1 (by decide) (by decide)) ?_
    exact .cons (PoolStep.finishJob demoS3 0 (by decide)) (.nil demoS4)
  exact (C7_no_start_after_shutdown demoS0 demoTr hrun).1 1 0 demoS2
    (PoolLabel.skipJob 1, demoS3) rfl rfl 0

/-- C8: worker metrics satisfy `busy = (currentJob ≠ none)` in the
initial, running and final states, and every `process` call — success,
typed failure, unexpected error or skip — clears the busy flag and the
current task on exit. -/
theorem C8_worker_metrics (m : WorkerMetrics) (p : String) (e now : Nat)
    (out : EncodeOutcome) (i : Nat) :
    metricsInv (WorkerMetrics.initWorker i) ∧
    metricsInv (Worker.runningState m p) ∧
    (Worker.process m p e now out).1.is_busy = false ∧
    (Worker.process m p e now out).1.current_task = none ∧
    metricsInv (Worker.process m p e now out).1 := by
  refine ⟨rfl, rfl, ?_, ?_, ?_⟩ <;> cases out <;> rfl

/-- C10 counterexample: when the only job's encoder returns `None`
(skip-if-larger), the orchestrator does not tally the job as skipped —
its result loop receives the un-awaited submit's Task object and aborts
with `TypeError`, so every tally is zero and the run reports failure. -/
theorem C10_counterexample : rSkip.tally = ⟨0, 0, 0⟩ ∧ rSkip.ok = false := by
  exact ⟨rfl, rfl⟩

/-- C10 (amended): when the encoder returns `None` without raising
(output larger than input, file deleted), the worker lands in the
no-exception branch: `tasks_completed` goes up by one, the elapsed time
is added, `tasks_failed` is untouched and `None` flows back to the
pool.  The orchestrator, however, never receives that result: its
result loop gets the `asyncio.Task` object from the never-awaited
`submit` and aborts with `TypeError`, so the job is tallied neither as
skipped nor as anything else, and no StateStore or ResultStore update
occurs for it (only the pre-scheduling pending save has happened). -/
theorem C10_skip_if_larger (m : WorkerMetrics) (p : String) (e now : Nat)
    (db : ConversionDatabase) (sm : StateManager) (t : Tally) (a : VideoAnalysis) :
    (Worker.process m p e now .skippedLarger).1.tasks_completed = m.tasks_completed + 1 ∧
    (Worker.process m p e now .skippedLarger).1.total_processing_time
      = m.total_processing_time + e ∧
    (Worker.process m p e now .skippedLarger).1.tasks_failed = m.tasks_failed ∧
    (Worker.process m p e now .skippedLarger).2 = none ∧
    processResults db sm t now [(p, a, .taskObj)] = (db, sm, t, false) ∧
    rSkip.tally = ⟨0, 0, 0⟩ ∧
    rSkip.db.conversions = [] ∧
    rSkip.db.statistics = Statistics.init ∧
    rSkip.sm.current_state.pending = ["v.mkv"] ∧
    rSkip.sm.file = some rSkip.sm.current_state := by
  exact ⟨rfl, rfl, rfl, rfl, rfl, rfl, rfl, rfl, rfl, rfl⟩

/-- C9: the scheduled list is sorted descending by original byte size;
for the concrete 3-file batch (10 MB, 100 MB, 500 MB submitted in that
order) the scheduling order is 500 MB, 100 MB, 10 MB, and on a pool of
size one the completion order equals the submission order. -/
theorem C9_size_descending_order :
    (∀ (db : ConversionDatabase) (files : List String)
        (analyze : String → Option VideoAnalysis) (force : Bool),
      List.Chain' (fun x y => y.2.file_size ≤ x.2.file_size)
        (filterConversions db files analyze force)) ∧
    (filterConversions .init ["small.mkv", "mid.mkv", "big.mkv"] analyzeThree false
      = [("big.mkv", a500), ("mid.mkv", a100), ("small.mkv", a10)]) ∧
    (∀ (m : WorkerMetrics) (jobs : List (String × VideoAnalysis))
        (outcomes : String → EncodeOutcome) (elapsed : String → Nat) (now : Nat),
      (runSeq m jobs outcomes elapsed now).2.map Prod.fst = jobs.map Prod.fst) ∧
    ((runSeq (WorkerMetrics.initWorker 0)
        (filterConversions .init ["small.mkv", "mid.mkv", "big.mkv"] analyzeThree false)
        (fun _ => .success ⟨1, 1⟩) (fun _ => 1) 0).2.map Prod.fst
      = ["big.mkv", "mid.mkv", "small.mkv"]) := by
  refine ⟨?_, by decide, ?_, by decide⟩
  · intro db files analyze force
    exact chain'_sortBySize (files.filterMap (filterStep db force analyze))
  · intro m jobs outcomes elapsed now
    exact runSeq_order outcomes elapsed now jobs m

end FFMC
